import Mathlib

/-!
Verification development for the NEXUS deep-research orchestration engine
(src/app/page.tsx). The engine is shallowly embedded: JavaScript strings are
Lean strings (one `Char` per UTF-16 code unit of the BMP text the app
handles), JavaScript numbers are exact rationals, the generation service and
the cancellation signal are an explicit environment, and the orchestration
loop is a pure function from that environment to a record of the observable
outcome (completed passes, issued calls, emitted ERROR events, produced
result).
-/

set_option linter.unnecessarySeqFocus false

namespace Nexus

/-- Split a character list at every single space character, modelling the
JavaScript `answer.split(' ')` used by the confidence scorer. Splitting the
empty string yields one (empty) part, as in JavaScript. -/
def splitOnSpace : List Char → List (List Char)
  | [] => [[]]
  | c :: rest =>
    if c = ' ' then [] :: splitOnSpace rest
    else
      match splitOnSpace rest with
      | [] => [[c]]
      | w :: ws => (c :: w) :: ws

/-- Word count used by the confidence scorer: `answer.split(' ').length`. -/
def wordCount (a : String) : Nat := (splitOnSpace a.data).length

/-- Check whether the first list starts the second one. -/
def startsWithChars : List Char → List Char → Bool
  | [], _ => true
  | _ :: _, [] => false
  | p :: ps, c :: cs => p = c && startsWithChars ps cs

/-- Check whether `pat` occurs somewhere inside the second list. -/
def hasSub (pat : List Char) : List Char → Bool
  | [] => startsWithChars pat []
  | c :: cs => startsWithChars pat (c :: cs) || hasSub pat cs

/-- Model of the JavaScript `s.includes(pat)`. -/
def includesStr (s pat : String) : Bool := hasSub pat.data s.data

/-- The four evidentiary phrases of the confidence scorer regular expression
`/according to|research shows|evidence suggests|data shows/gi`, in the
alternation order of the source. -/
def evPhrases : List (List Char) :=
  ["according to".data, "research shows".data, "evidence suggests".data, "data shows".data]

/-- Fuel-indexed scan counting non-overlapping, leftmost matches of the
evidentiary phrases, as the global regular expression match does: at each
position try the alternatives in order; on a match, continue after it. -/
def evScanAux : Nat → List Char → Nat
  | 0, _ => 0
  | _, [] => 0
  | fuel + 1, c :: cs =>
    match evPhrases.find? (fun p => startsWithChars p (c :: cs)) with
    | some p => 1 + evScanAux fuel ((c :: cs).drop p.length)
    | none => evScanAux fuel cs

/-- Number of case-insensitive evidentiary-phrase matches in `a`
(`answer.match(/according to|research shows|evidence suggests|data shows/gi)`).
The `i` flag is modelled by ASCII lowercasing, which is exact for the
ASCII-only phrases. -/
def evCount (a : String) : Nat :=
  evScanAux a.data.length (a.data.map Char.toLower)

/-- Shallow embedding of `computeConfidence(answer, numPasses, docChunks,
hasMem)` from src/app/page.tsx (lines 135-145). JavaScript numbers are
modelled by exact rationals; `Math.round` is `round` (floor of x + 1/2, as
in JavaScript for the nonnegative values arising here), and
`Math.min(97, Math.max(22, ...))` is the final clamp. -/
def computeConfidence (answer : String) (numPasses : Nat) (docChunks : Nat) (hasMem : Bool) : Int :=
  let s : ℚ := 45
  let s := s + min 15 ((wordCount answer : ℚ) / 120)
  let s := s + min 18 ((numPasses : ℚ) * 3.5)
  let s := s + min 12 ((docChunks : ℚ) * 2)
  let s := if hasMem then s + 5 else s
  let s := s + min 10 ((evCount answer : ℚ) * 1.5)
  let s := if includesStr answer "##" || includesStr answer "|" then s + 4 else s
  min 97 (max 22 (round s))

/-- The confidence formula exactly as claim C4 words it: round(45 +
min(15, wordCount/120) + min(18, n × 3.5) + min(12, d × 2) + (5 if memory) +
min(10, 1.5 × evidentiary matches) + (4 if heading marker or pipe)), clamped
to [22, 97]. -/
def specConfidence (a : String) (n : Nat) (d : Nat) (m : Bool) : Int :=
  min 97 (max 22 (round ((45 : ℚ)
    + min 15 ((wordCount a : ℚ) / 120)
    + min 18 ((n : ℚ) * 3.5)
    + min 12 ((d : ℚ) * 2)
    + (if m then (5 : ℚ) else 0)
    + min 10 (1.5 * (evCount a : ℚ))
    + (if includesStr a "##" || includesStr a "|" then (4 : ℚ) else 0))))

theorem roundClamp_congr {x y : ℚ} (h : x = y) :
    min 97 (max 22 (round x)) = min 97 (max 22 (round y)) := by rw [h]

/-- C4: for every answer string, completed-pass count, auxiliary-document
count and memory flag, the confidence score of the source equals the formula
stated by the claim, rounded to the nearest integer and clamped to [22, 97]. -/
theorem confidence_formula_matches_spec (a : String) (n d : Nat) (m : Bool) :
    computeConfidence a n d m = specConfidence a n d m := by
  simp only [computeConfidence, specConfidence]
  cases m <;> cases h : (includesStr a "##" || includesStr a "|") <;>
    simp only [h, Bool.false_eq_true, if_false, if_true, ite_true, ite_false] <;>
    (apply roundClamp_congr; ring_nf)

/-- C5: the confidence scorer always returns an integer in [22, 97], for any
answer text (including the empty string), pass count, document count and
memory flag. -/
theorem confidence_score_bounds (a : String) (n d : Nat) (m : Bool) :
    22 ≤ computeConfidence a n d m ∧ computeConfidence a n d m ≤ 97 := by
  simp only [computeConfidence]
  exact ⟨le_min (by norm_num) (le_max_left _ _), min_le_left _ _⟩

theorem computeConfidence_empty_eval : computeConfidence "" 0 0 false = 45 := by
  have h1 : wordCount "" = 1 := rfl
  have h2 : evCount "" = 0 := rfl
  have h3 : (includesStr "" "##" || includesStr "" "|") = false := rfl
  simp only [computeConfidence, h1, h2, h3, Bool.false_eq_true, if_false,
    Nat.cast_zero, Nat.cast_one, zero_mul]
  rw [show min (15 : ℚ) ((1 : ℚ) / 120) = 1 / 120 from by rw [min_eq_right]; norm_num]
  rw [show min (18 : ℚ) (0 : ℚ) = 0 from by rw [min_eq_right]; norm_num]
  rw [show min (12 : ℚ) (0 : ℚ) = 0 from by rw [min_eq_right]; norm_num]
  rw [show min (10 : ℚ) (0 : ℚ) = 0 from by rw [min_eq_right]; norm_num]
  rw [show (45 : ℚ) + 1 / 120 + 0 + 0 + 0 = 45 + 1 / 120 by ring]
  rw [show round ((45 : ℚ) + 1 / 120) = 45 from by
    rw [round_eq, Int.floor_eq_iff] <;> norm_num]
  decide

/-- C6 counterexample: on the empty answer with zero passes, zero documents
and no memory, the scorer does not return the clamped minimum 22. -/
theorem empty_answer_confidence_ne_22 : computeConfidence "" 0 0 false ≠ 22 := by
  rw [computeConfidence_empty_eval]; decide

/-- C6 (amended): on the empty answer with zero passes, zero documents and no
memory, the scorer returns 45 (the base 45 plus the minimal word-count term
1/120, rounded), which respects but does not attain the [22, 97] bound. -/
theorem empty_answer_confidence_eq_45 : computeConfidence "" 0 0 false = 45 :=
  computeConfidence_empty_eval

/-- The value produced by the JavaScript lookup
`{ quick: 1, standard: 3, deep: 5, exhaustive: 8 }[depth] || 3`: either a
number, or a truthy non-numeric value inherited from `Object.prototype`
(a method like `toString`, or the `__proto__` accessor result), against
which `|| 3` never applies. -/
inductive PassCountValue
  | num (n : Nat)
  | inherited
deriving DecidableEq

/-- The property keys a plain object literal inherits from
`Object.prototype` (ECMA-262, including the Annex B legacy accessors): a
computed member access with one of these strings walks the prototype chain
and resolves a truthy function or object instead of `undefined`. -/
def objectProtoKeys : List String :=
  ["constructor", "hasOwnProperty", "isPrototypeOf", "propertyIsEnumerable",
   "toLocaleString", "toString", "valueOf", "__proto__",
   "__defineGetter__", "__defineSetter__", "__lookupGetter__", "__lookupSetter__"]

/-- Depth-tier resolution, modelling
`{ quick: 1, standard: 3, deep: 5, exhaustive: 8 }[depth] || 3`
(src/app/page.tsx line 238): an own key yields its number; a key inherited
from `Object.prototype` yields the truthy inherited value, so the `|| 3`
default is skipped; any other string yields `undefined`, which is falsy, so
the default 3 applies. -/
def numPassesValue (depth : String) : PassCountValue :=
  if depth = "quick" then PassCountValue.num 1
  else if depth = "standard" then PassCountValue.num 3
  else if depth = "deep" then PassCountValue.num 5
  else if depth = "exhaustive" then PassCountValue.num 8
  else if objectProtoKeys.contains depth then PassCountValue.inherited
  else PassCountValue.num 3

/-- The number of loop iterations `for (let i = 0; i < numPasses; i++)`
performs for the resolved value: a number runs that many passes; an
inherited function or object converts to NaN in the comparison, so
`i < numPasses` is false from the start and zero passes run. -/
def effectivePasses : PassCountValue → Nat
  | PassCountValue.num n => n
  | PassCountValue.inherited => 0

/-- C9 counterexample: the tier string "toString" is outside the four
recognized tiers, yet the lookup resolves the inherited
`Object.prototype.toString` function, the `|| 3` default never applies, and
the run executes zero passes, not 3. -/
theorem depth_tier_counterexample :
    ("toString" : String) ≠ "quick" ∧ ("toString" : String) ≠ "standard" ∧
    ("toString" : String) ≠ "deep" ∧ ("toString" : String) ≠ "exhaustive" ∧
    effectivePasses (numPassesValue "toString") = 0 ∧
    effectivePasses (numPassesValue "toString") ≠ 3 := by decide

/-- C9 (amended): the resolved pass count follows the fixed mapping quick→1,
standard→3, deep→5, exhaustive→8; a tier string outside these four that is
not a property key inherited from `Object.prototype` yields 3 passes; a tier
string naming an inherited `Object.prototype` property resolves a truthy
inherited value, so the default never applies and zero passes run. -/
theorem depth_tier_mapping_amended :
    effectivePasses (numPassesValue "quick") = 1 ∧
    effectivePasses (numPassesValue "standard") = 3 ∧
    effectivePasses (numPassesValue "deep") = 5 ∧
    effectivePasses (numPassesValue "exhaustive") = 8 ∧
    (∀ d : String, d ≠ "quick" → d ≠ "standard" → d ≠ "deep" → d ≠ "exhaustive" →
      objectProtoKeys.contains d = false → effectivePasses (numPassesValue d) = 3) ∧
    (∀ d : String, d ≠ "quick" → d ≠ "standard" → d ≠ "deep" → d ≠ "exhaustive" →
      objectProtoKeys.contains d = true → effectivePasses (numPassesValue d) = 0) := by
  refine ⟨by decide, by decide, by decide, by decide, ?_, ?_⟩
  · intro d h1 h2 h3 h4 h5
    have h5m : d ∉ objectProtoKeys := by simpa using h5
    simp [numPassesValue, effectivePasses, h1, h2, h3, h4, h5m]
  · intro d h1 h2 h3 h4 h5
    have h5m : d ∈ objectProtoKeys := by simpa using h5
    simp [numPassesValue, effectivePasses, h1, h2, h3, h4, h5m]

/-- C9 witness: the unrecognized tier "mystery" resolves to 3 passes, while
the inherited key "valueOf" resolves to zero passes. -/
theorem depth_tier_mapping_amended_witness :
    effectivePasses (numPassesValue "mystery") = 3 ∧
    effectivePasses (numPassesValue "valueOf") = 0 :=
  ⟨depth_tier_mapping_amended.2.2.2.2.1 "mystery"
      (by decide) (by decide) (by decide) (by decide) (by decide),
    depth_tier_mapping_amended.2.2.2.2.2 "valueOf"
      (by decide) (by decide) (by decide) (by decide) (by decide)⟩

/-- Model of the JavaScript `Array.prototype.join(sep)`. -/
def joinSep (sep : String) : List String → String
  | [] => ""
  | [a] => a
  | a :: b :: rest => a ++ sep ++ joinSep sep (b :: rest)

/-- The per-pass excerpt blocks of the previous-passes section, modelling
`passResults.map((r, j) => ...)` with the running index `j` starting at `k`:
each block is the first 500 characters of the pass output followed by the
truncation marker. -/
def passBlocks (k : Nat) : List String → List String
  | [] => []
  | r :: rs =>
    ("[Pass " ++ toString (k + 1) ++ "]: " ++ r.take 500 ++ "...") :: passBlocks (k + 1) rs

/-- The previous-passes block of a pass prompt (src/app/page.tsx lines
262-264): empty for an empty result list, otherwise a banner followed by the
joined excerpt blocks. -/
def prevCtxFor (passResults : List String) : String :=
  match passResults with
  | [] => ""
  | _ :: _ => "\n\nPREVIOUS PASSES:\n" ++ joinSep "\n\n" (passBlocks 0 passResults)

/-- The user prompt of one research pass (src/app/page.tsx line 265): the
literal query, the memory block, the previous-passes block and the closing
directive naming the pass label. -/
def buildUserPrompt (query memSection : String) (passResults : List String)
    (passLabel : String) : String :=
  "RESEARCH QUERY: " ++ query ++ memSection ++ prevCtxFor passResults ++
    "\n\nExecute " ++ passLabel ++ ". Be thorough and precise."

/-- The patterns of a list occur in the string in this order, each verbatim:
the string decomposes around the first pattern and the remainder contains the
rest in order. -/
def containsInOrder (s : String) : List String → Prop
  | [] => True
  | p :: ps => ∃ a b, s = a ++ p ++ b ∧ containsInOrder b ps

theorem passBlocks_containsInOrder (rs : List String) :
    ∀ (k : Nat) (A B : String),
      containsInOrder (A ++ joinSep "\n\n" (passBlocks k rs) ++ B)
        (rs.map fun r => r.take 500 ++ "...") := by
  induction rs with
  | nil => intro k A B; trivial
  | cons r rs ih =>
    intro k A B
    cases rs with
    | nil =>
      refine ⟨A ++ ("[Pass " ++ toString (k + 1) ++ "]: "), B, ?_, trivial⟩
      simp only [passBlocks, joinSep, String.append_assoc]
    | cons r2 rs2 =>
      refine ⟨A ++ ("[Pass " ++ toString (k + 1) ++ "]: "),
        "\n\n" ++ joinSep "\n\n" (passBlocks (k + 1) (r2 :: rs2)) ++ B, ?_, ?_⟩
      · simp only [passBlocks, joinSep, String.append_assoc]
      · exact ih (k + 1) "\n\n" B

/-- C7: for a pass with a nonempty list of prior outputs, the constructed
user prompt contains, verbatim and in ascending pass-index order, the first
500 characters of each prior output followed by the truncation marker; the
pass-0 prompt (empty prior list) is exactly query, memory block and
directive, with no previous-passes block. -/
theorem prompt_prev_passes (q mSec label : String) (rs : List String) :
    (rs ≠ [] →
      containsInOrder (buildUserPrompt q mSec rs label)
        (rs.map fun r => r.take 500 ++ "...")) ∧
    buildUserPrompt q mSec [] label =
      "RESEARCH QUERY: " ++ q ++ mSec ++ "\n\nExecute " ++ label ++
        ". Be thorough and precise." := by
  constructor
  · intro hne
    cases rs with
    | nil => exact absurd rfl hne
    | cons r rs2 =>
      have h : buildUserPrompt q mSec (r :: rs2) label =
          ("RESEARCH QUERY: " ++ q ++ mSec ++ "\n\nPREVIOUS PASSES:\n") ++
            joinSep "\n\n" (passBlocks 0 (r :: rs2)) ++
            ("\n\nExecute " ++ label ++ ". Be thorough and precise.") := by
        simp only [buildUserPrompt, prevCtxFor, String.append_assoc]
      rw [h]
      exact passBlocks_containsInOrder (r :: rs2) 0 _ _
  · simp only [buildUserPrompt, prevCtxFor, String.append_empty, String.append_assoc]

/-- C7 witness: a one-element prior-output list yields a prompt containing
the truncated output followed by the marker. -/
theorem prompt_prev_passes_witness :
    (["alpha"] : List String) ≠ [] ∧
    containsInOrder (buildUserPrompt "Q" "" ["alpha"] "DEEP INVESTIGATION")
      ((["alpha"] : List String).map fun r => r.take 500 ++ "...") :=
  ⟨by decide, (prompt_prev_passes "Q" "" "DEEP INVESTIGATION" ["alpha"]).1 (by decide)⟩

/-- A stored memory context, as read by the memory-block builder. -/
structure MemoryContext where
  id : String
  query : String
  answer : String
  provider : String
  model : String
deriving DecidableEq

/-- The per-context blocks of the memory section, modelling
`sel.map((c, i) => ...)` with the running index starting at `k`: each block
holds the full original query and the first 600 characters of the stored
answer followed by the truncation marker. -/
def ctxBlocks (k : Nat) : List MemoryContext → List String
  | [] => []
  | c :: cs =>
    ("[Context " ++ toString (k + 1) ++ "]\nPrevious Query: " ++ c.query ++
      "\nPrevious Answer: " ++ c.answer.take 600 ++ "...") :: ctxBlocks (k + 1) cs

/-- Shallow embedding of `buildMemorySection()` (src/app/page.tsx lines
221-228): empty when no context ids are active or no stored context is
selected, otherwise the selected contexts formatted between delimiter
banners. The JavaScript `Set` of active ids is modelled as a list with
membership test. -/
def buildMemorySection (memoryContexts : List MemoryContext)
    (activeContextIds : List String) : String :=
  match activeContextIds with
  | [] => ""
  | _ :: _ =>
    match memoryContexts.filter (fun c => activeContextIds.contains c.id) with
    | [] => ""
    | sel@(_ :: _) =>
      "\n\n━━━ PRIOR RESEARCH CONTEXTS ━━━\n" ++ joinSep "\n\n" (ctxBlocks 0 sel) ++
        "\n━━━ END CONTEXTS ━━━\n\nUse the above prior research to inform your current analysis."

/-- The in-order patterns claim C8 requires of the memory block: for each
selected context, its full original query, then the first 600 characters of
its stored answer followed by the truncation marker. -/
def patsOfCtxs : List MemoryContext → List String
  | [] => []
  | c :: cs => c.query :: (c.answer.take 600 ++ "...") :: patsOfCtxs cs

theorem ctxBlocks_containsInOrder (sel : List MemoryContext) :
    ∀ (k : Nat) (A B : String),
      containsInOrder (A ++ joinSep "\n\n" (ctxBlocks k sel) ++ B) (patsOfCtxs sel) := by
  induction sel with
  | nil => intro k A B; trivial
  | cons c cs ih =>
    intro k A B
    cases cs with
    | nil =>
      refine ⟨A ++ ("[Context " ++ toString (k + 1) ++ "]\nPrevious Query: "),
        "\nPrevious Answer: " ++ (c.answer.take 600 ++ "...") ++ B, ?_, ?_⟩
      · simp only [ctxBlocks, joinSep, String.append_assoc]
      · refine ⟨"\nPrevious Answer: ", B, ?_, trivial⟩
        simp only [String.append_assoc]
    | cons c2 cs2 =>
      refine ⟨A ++ ("[Context " ++ toString (k + 1) ++ "]\nPrevious Query: "),
        "\nPrevious Answer: " ++ (c.answer.take 600 ++ "...") ++
          ("\n\n" ++ joinSep "\n\n" (ctxBlocks (k + 1) (c2 :: cs2)) ++ B), ?_, ?_⟩
      · simp only [ctxBlocks, joinSep, String.append_assoc]
      · refine ⟨"\nPrevious Answer: ",
          "\n\n" ++ joinSep "\n\n" (ctxBlocks (k + 1) (c2 :: cs2)) ++ B, ?_, ?_⟩
        · simp only [String.append_assoc]
        · exact ih (k + 1) "\n\n" B

/-- C8: the memory-block builder returns empty text exactly when the set of
selected contexts is empty; otherwise the output is wrapped in the delimiter
banners and contains, for each selected context in order, its full original
query verbatim and the first 600 characters of its stored answer followed by
the truncation marker. -/
theorem memory_section_spec (mcs : List MemoryContext) (ids : List String) :
    (mcs.filter (fun c => ids.contains c.id) = [] → buildMemorySection mcs ids = "") ∧
    (mcs.filter (fun c => ids.contains c.id) ≠ [] →
      (∃ mid, buildMemorySection mcs ids =
        "\n\n━━━ PRIOR RESEARCH CONTEXTS ━━━\n" ++ mid ++
          "\n━━━ END CONTEXTS ━━━\n\nUse the above prior research to inform your current analysis.") ∧
      containsInOrder (buildMemorySection mcs ids)
        (patsOfCtxs (mcs.filter (fun c => ids.contains c.id)))) := by
  cases ids with
  | nil =>
    constructor
    · intro _; rfl
    · intro hne
      exact absurd (List.filter_eq_nil_iff.mpr (fun a _ => by simp [List.contains])) hne
  | cons i0 ids2 =>
    cases hsel : mcs.filter (fun c => (i0 :: ids2).contains c.id) with
    | nil =>
      constructor
      · intro _
        simp only [buildMemorySection, hsel]
      · intro hne; exact absurd rfl hne
    | cons c cs =>
      constructor
      · intro h; exact absurd h (List.cons_ne_nil c cs)
      · intro _
        have hb : buildMemorySection mcs (i0 :: ids2) =
            "\n\n━━━ PRIOR RESEARCH CONTEXTS ━━━\n" ++ joinSep "\n\n" (ctxBlocks 0 (c :: cs)) ++
              "\n━━━ END CONTEXTS ━━━\n\nUse the above prior research to inform your current analysis." := by
          simp only [buildMemorySection, hsel]
        constructor
        · exact ⟨joinSep "\n\n" (ctxBlocks 0 (c :: cs)), hb⟩
        · rw [hb]
          exact ctxBlocks_containsInOrder (c :: cs) 0 _ _

/-- A concrete stored context used to exercise the memory-block builder. -/
def ctxW : MemoryContext :=
  { id := "id1", query := "What is X", answer := "X is a thing", provider := "anthropic",
    model := "claude-sonnet-4-5" }

/-- C8 witness: one stored context whose id is active yields a memory block
between the banners containing the query and the truncated answer. -/
theorem memory_section_witness :
    ([ctxW].filter (fun c => (["id1"] : List String).contains c.id) ≠ []) ∧
    ((∃ mid, buildMemorySection [ctxW] ["id1"] =
        "\n\n━━━ PRIOR RESEARCH CONTEXTS ━━━\n" ++ mid ++
          "\n━━━ END CONTEXTS ━━━\n\nUse the above prior research to inform your current analysis.") ∧
      containsInOrder (buildMemorySection [ctxW] ["id1"])
        (patsOfCtxs ([ctxW].filter (fun c => (["id1"] : List String).contains c.id)))) :=
  ⟨by decide, (memory_section_spec [ctxW] ["id1"]).2 (by decide)⟩

/-- Outcome of one awaited generation call: the resolved text, a rejection
with a provider error message, or a rejection with an AbortError because the
cancellation signal fired while the call was in flight. -/
inductive CallOutcome
  | ok (text : String)
  | err (msg : String)
  | abortErr
deriving DecidableEq

/-- An exception escaping the pass loop: a provider error (caught as an
ERROR thought) or an AbortError (caught silently). -/
inductive Thrown
  | genErr (msg : String)
  | abortError
deriving DecidableEq

/-- The environment of one run of `startResearch`: the state of the
cancellation signal at each successive observation point (point `i < N` is
the poll at the top of loop iteration `i`, point `N` the pre-synthesis check
of line 274, point `N + 1` the pre-result check of line 289), the outcome of
the generation call of each pass, and the outcome of the synthesis call. -/
structure Env where
  signal : Nat → Bool
  passCall : Nat → CallOutcome
  synthCall : CallOutcome

/-- The cancellation signal of an `AbortController` never resets during a
run: once observed aborted it stays aborted at every later observation. -/
def MonotoneSignal (env : Env) : Prop :=
  ∀ i j : Nat, i ≤ j → env.signal i = true → env.signal j = true

/-- State of the pass loop when it exits: the completed pass outputs, the
indices of passes whose generation call was issued (in issue order), whether
a cancellation was observed, and the exception that escaped, if any. -/
structure LoopState where
  passResults : List String
  callsMade : List Nat
  sawCancel : Bool
  thrown : Option Thrown
deriving DecidableEq

/-- The pass loop of `startResearch` (src/app/page.tsx lines 253-272) over
the remaining pass indices: poll the signal and break if aborted, otherwise
issue the generation call for the pass; a resolved call appends its output
and continues, a rejected call escapes the loop as an exception. -/
def loopGo (env : Env) : List Nat → List String → List Nat → LoopState
  | [], acc, calls => ⟨acc, calls, false, none⟩
  | i :: rest, acc, calls =>
    if env.signal i = true then ⟨acc, calls, true, none⟩
    else
      match env.passCall i with
      | CallOutcome.ok s => loopGo env rest (acc ++ [s]) (calls ++ [i])
      | CallOutcome.err m => ⟨acc, calls ++ [i], false, some (Thrown.genErr m)⟩
      | CallOutcome.abortErr => ⟨acc, calls ++ [i], true, some Thrown.abortError⟩

/-- Observable outcome of one run: completed pass outputs, issued pass
calls, whether the synthesis call was issued, the value the `finalAnswer`
variable reached (none when the run threw before assigning it), the answer
of the produced ResearchResult (none when no result was produced), the
ERROR thought events emitted, whether the run observed a cancellation, and
whether the pass loop ended in an exception. -/
structure RunOutput where
  completedPasses : List String
  passCallsMade : List Nat
  synthesisInvoked : Bool
  finalAnswer : Option String
  result : Option String
  errors : List String
  sawCancel : Bool
  loopThrew : Bool
deriving DecidableEq

/-- The body of `startResearch` after the guard (src/app/page.tsx lines
253-328) for resolved pass count `N`: run the pass loop; on a provider error
emit exactly one ERROR event and stop; on an AbortError stop silently;
otherwise issue the synthesis call iff the signal is unset at the
pre-synthesis check, `N > 1`, and more than one pass completed, else take
the last completed output (or empty text); finally produce a ResearchResult
iff the signal is still unset and the final answer is nonempty. -/
def runResearch (env : Env) (N : Nat) : RunOutput :=
  match loopGo env (List.range N) [] [] with
  | ⟨P, calls, c, some (Thrown.genErr m)⟩ =>
    { completedPasses := P, passCallsMade := calls, synthesisInvoked := false,
      finalAnswer := none, result := none, errors := [m], sawCancel := c, loopThrew := true }
  | ⟨P, calls, _, some Thrown.abortError⟩ =>
    { completedPasses := P, passCallsMade := calls, synthesisInvoked := false,
      finalAnswer := none, result := none, errors := [], sawCancel := true, loopThrew := true }
  | ⟨P, calls, c, none⟩ =>
    if env.signal N = false ∧ 1 < N ∧ 1 < P.length then
      match env.synthCall with
      | CallOutcome.ok s =>
        { completedPasses := P, passCallsMade := calls, synthesisInvoked := true,
          finalAnswer := some s,
          result := if env.signal (N + 1) = false ∧ s ≠ "" then some s else none,
          errors := [], sawCancel := c || env.signal N || env.signal (N + 1),
          loopThrew := false }
      | CallOutcome.err m =>
        { completedPasses := P, passCallsMade := calls, synthesisInvoked := true,
          finalAnswer := none, result := none, errors := [m],
          sawCancel := c || env.signal N, loopThrew := false }
      | CallOutcome.abortErr =>
        { completedPasses := P, passCallsMade := calls, synthesisInvoked := true,
          finalAnswer := none, result := none, errors := [],
          sawCancel := true, loopThrew := false }
    else
      { completedPasses := P, passCallsMade := calls, synthesisInvoked := false,
        finalAnswer := some (P.getLast?.getD ""),
        result := if env.signal (N + 1) = false ∧ P.getLast?.getD "" ≠ "" then
          some (P.getLast?.getD "") else none,
        errors := [], sawCancel := c || env.signal N || env.signal (N + 1),
        loopThrew := false }

/-- The whitespace characters trimmed by the JavaScript `String.trim`. -/
def jsWhitespaceChar (c : Char) : Bool :=
  c = ' ' || c = '\t' || c = '\n' || c = '\r' || c = '\x0b' || c = '\x0c' ||
  c = ' ' || c = '﻿' || c = ' ' ||
  (' ' ≤ c && c ≤ ' ') || c = ' ' || c = ' ' ||
  c = ' ' || c = ' ' || c = '　'

/-- Model of the JavaScript `query.trim()`. -/
def jsTrim (s : String) : String :=
  ⟨((s.data.dropWhile jsWhitespaceChar).reverse.dropWhile jsWhitespaceChar).reverse⟩

/-- Entry point of the engine (src/app/page.tsx lines 230-236): the guard
`if (!query.trim() || isResearching) return;` makes the call a no-op — no
event, no generation call, no state change (modelled as `none`) — when the
trimmed query is empty or a run is already active; otherwise the run body
executes with the pass count resolved from the depth tier. -/
def startResearch (query : String) (isResearching : Bool) (depth : String)
    (env : Env) : Option RunOutput :=
  if jsTrim query = "" ∨ isResearching = true then none
  else some (runResearch env (effectivePasses (numPassesValue depth)))

theorem loopGo_genErr_sawCancel (env : Env) :
    ∀ (l : List Nat) (acc : List String) (calls : List Nat) (st : LoopState) (m : String),
      loopGo env l acc calls = st → st.thrown = some (Thrown.genErr m) → st.sawCancel = false := by
  intro l
  induction l with
  | nil =>
    intro acc calls st m hrun hth
    rw [← hrun] at hth
    simp [loopGo] at hth
  | cons i rest ih =>
    intro acc calls st m hrun hth
    by_cases hs : env.signal i = true
    · rw [← hrun] at hth ⊢
      simp [loopGo, hs] at hth
    · cases hc : env.passCall i with
      | ok s =>
        refine ih (acc ++ [s]) (calls ++ [i]) st m ?_ hth
        rw [← hrun]
        simp [loopGo, hs, hc]
      | err m2 =>
        rw [← hrun]
        simp [loopGo, hs, hc]
      | abortErr =>
        rw [← hrun] at hth
        simp [loopGo, hs, hc] at hth

theorem loopGo_sawCancel_signal (env : Env) :
    ∀ (l : List Nat) (acc : List String) (calls : List Nat) (st : LoopState),
      loopGo env l acc calls = st → st.thrown = none → st.sawCancel = true →
      ∃ k ∈ l, env.signal k = true := by
  intro l
  induction l with
  | nil =>
    intro acc calls st hrun hth hc
    rw [← hrun] at hc
    simp [loopGo] at hc
  | cons i rest ih =>
    intro acc calls st hrun hth hc
    by_cases hs : env.signal i = true
    · exact ⟨i, List.mem_cons_self i rest, hs⟩
    · cases hcall : env.passCall i with
      | ok s =>
        have hstep : loopGo env rest (acc ++ [s]) (calls ++ [i]) = st := by
          rw [← hrun]; simp [loopGo, hs, hcall]
        obtain ⟨k, hk, hsk⟩ := ih (acc ++ [s]) (calls ++ [i]) st hstep hth hc
        exact ⟨k, List.mem_cons_of_mem i hk, hsk⟩
      | err m =>
        rw [← hrun] at hth
        simp [loopGo, hs, hcall] at hth
      | abortErr =>
        rw [← hrun] at hth
        simp [loopGo, hs, hcall] at hth

theorem loopGo_err_trace (env : Env) (k : Nat) (m : String)
    (hsigk : env.signal k = false) (herr : env.passCall k = CallOutcome.err m) :
    ∀ (pre rest : List Nat) (acc : List String) (calls : List Nat),
      (∀ j ∈ pre, env.signal j = false) →
      (∀ j ∈ pre, ∃ s, env.passCall j = CallOutcome.ok s) →
      ∃ P, loopGo env (pre ++ k :: rest) acc calls =
        ⟨P, calls ++ pre ++ [k], false, some (Thrown.genErr m)⟩ := by
  intro pre
  induction pre with
  | nil =>
    intro rest acc calls _ _
    refine ⟨acc, ?_⟩
    simp [loopGo, hsigk, herr]
  | cons j pre2 ih =>
    intro rest acc calls hsig hok
    obtain ⟨s, hs⟩ := hok j (List.mem_cons_self j pre2)
    have hsj : env.signal j = false := hsig j (List.mem_cons_self j pre2)
    obtain ⟨P, hP⟩ := ih rest (acc ++ [s]) (calls ++ [j])
      (fun x hx => hsig x (List.mem_cons_of_mem j hx))
      (fun x hx => hok x (List.mem_cons_of_mem j hx))
    refine ⟨P, ?_⟩
    rw [List.cons_append]
    have hunf : loopGo env (j :: (pre2 ++ k :: rest)) acc calls =
        loopGo env (pre2 ++ k :: rest) (acc ++ [s]) (calls ++ [j]) := by
      simp [loopGo, hsj, hs]
    rw [hunf, hP]
    simp

/-- C2: whenever the run observes a requested cancellation (at a
pass-boundary poll, via an AbortError from an in-flight call, or at the
pre-synthesis or pre-result checks), it terminates producing no
ResearchResult and emitting no ERROR event. The signal is monotone, as an
AbortController signal is. -/
theorem cancellation_no_result_no_error (env : Env) (N : Nat)
    (hmono : MonotoneSignal env)
    (hc : (runResearch env N).sawCancel = true) :
    (runResearch env N).result = none ∧ (runResearch env N).errors = [] := by
  rcases hL : loopGo env (List.range N) [] [] with ⟨P, calls, c, th⟩
  have hup : ∀ j : Nat, c = true → th = none → N ≤ j → env.signal j = true := by
    intro j hcc hth hj
    obtain ⟨k, hk, hsk⟩ :=
      loopGo_sawCancel_signal env (List.range N) [] [] ⟨P, calls, c, th⟩ hL
        (by rw [hth]) hcc
    exact hmono k j (le_trans (le_of_lt (List.mem_range.mp hk)) hj) hsk
  rcases th with _ | mm
  · cases c with
    | true =>
      have hN : env.signal N = true := hup N rfl rfl le_rfl
      have hN1 : env.signal (N + 1) = true := hup (N + 1) rfl rfl (Nat.le_succ N)
      have hcond : ¬(env.signal N = false ∧ 1 < N ∧ 1 < P.length) := by simp [hN]
      simp only [runResearch, hL, if_neg hcond]
      exact ⟨by simp [hN1], trivial⟩
    | false =>
      by_cases hcond : env.signal N = false ∧ 1 < N ∧ 1 < P.length
      · rcases hsy : env.synthCall with s | m | _
        · simp only [runResearch, hL, hsy, if_pos hcond] at hc ⊢
          have hN1 : env.signal (N + 1) = true := by simpa [hcond.1] using hc
          exact ⟨by simp [hN1], trivial⟩
        · exfalso
          simp only [runResearch, hL, hsy, if_pos hcond] at hc
          rw [hcond.1] at hc
          simp at hc
        · simp only [runResearch, hL, hsy, if_pos hcond]
          exact ⟨trivial, trivial⟩
      · simp only [runResearch, hL, if_neg hcond] at hc ⊢
        have hN1 : env.signal (N + 1) = true := by
          simp only [Bool.false_or] at hc
          rcases (Bool.or_eq_true _ _).mp hc with h | h
          · exact hmono N (N + 1) (Nat.le_succ N) h
          · exact h
        exact ⟨by simp [hN1], trivial⟩
  · rcases mm with m | _
    · have hcf := loopGo_genErr_sawCancel env (List.range N) [] []
        ⟨P, calls, c, some (Thrown.genErr m)⟩ m hL rfl
      simp only [runResearch, hL] at hc
      simp only at hcf
      rw [hcf] at hc
      exact absurd hc (by decide)
    · simp only [runResearch, hL]
      exact ⟨trivial, trivial⟩

/-- Environment of the C2 witness: the user requests cancellation before the
first pass poll. -/
def envC2 : Env where
  signal := fun _ => true
  passCall := fun _ => CallOutcome.ok "unused"
  synthCall := CallOutcome.ok "unused"

/-- C2 witness: cancelling before any pass completes yields no
ResearchResult and no ERROR event. -/
theorem cancellation_witness :
    MonotoneSignal envC2 ∧ (runResearch envC2 2).sawCancel = true ∧
    (runResearch envC2 2).result = none ∧ (runResearch envC2 2).errors = [] :=
  ⟨fun _ _ _ h => h, by decide,
    cancellation_no_result_no_error envC2 2 (fun _ _ _ h => h) (by decide)⟩

/-- C3: if the generation call of pass `k` fails with message `m` while no
cancellation is requested (the claim's range `k < N - 1` is the hypothesis
`k + 1 < N`), the run produces no ResearchResult, emits exactly one ERROR
event carrying `m`, issues exactly one generation call for each of the
passes 0..k and no other (no retry), and never executes a pass after `k`
nor the synthesis call. -/
theorem pass_failure_aborts (env : Env) (N k : Nat) (m : String)
    (hk : k + 1 < N)
    (hsig : ∀ j, j ≤ k → env.signal j = false)
    (hok : ∀ j, j < k → ∃ s, env.passCall j = CallOutcome.ok s)
    (herr : env.passCall k = CallOutcome.err m) :
    (runResearch env N).result = none ∧
    (runResearch env N).errors = [m] ∧
    (runResearch env N).passCallsMade = List.range (k + 1) ∧
    (runResearch env N).synthesisInvoked = false := by
  have hrange : List.range N =
      List.range k ++ k :: (List.range (N - (k + 1))).map (fun j => (k + 1) + j) := by
    conv_lhs => rw [show N = (k + 1) + (N - (k + 1)) by omega]
    rw [List.range_add, List.range_succ]
    simp
  obtain ⟨P, hP⟩ := loopGo_err_trace env k m (hsig k le_rfl) herr (List.range k)
    ((List.range (N - (k + 1))).map (fun j => (k + 1) + j)) [] []
    (fun j hj => hsig j (le_of_lt (List.mem_range.mp hj)))
    (fun j hj => hok j (List.mem_range.mp hj))
  have hL : loopGo env (List.range N) [] [] =
      ⟨P, [] ++ List.range k ++ [k], false, some (Thrown.genErr m)⟩ := by
    rw [hrange]; exact hP
  refine ⟨?_, ?_, ?_, ?_⟩ <;> simp [runResearch, hL, List.range_succ]

/-- Environment of the C3 witness: the very first pass call fails. -/
def envC3 : Env where
  signal := fun _ => false
  passCall := fun i => match i with
    | 0 => CallOutcome.err "rate limit exceeded"
    | _ => CallOutcome.ok "unused"
  synthCall := CallOutcome.ok "unused"

/-- C3 witness: a failure on pass 0 of a 3-pass run yields no result, one
ERROR event with the message, exactly the one issued call, and no
synthesis. -/
theorem pass_failure_aborts_witness :
    (runResearch envC3 3).result = none ∧
    (runResearch envC3 3).errors = ["rate limit exceeded"] ∧
    (runResearch envC3 3).passCallsMade = List.range 1 ∧
    (runResearch envC3 3).synthesisInvoked = false :=
  pass_failure_aborts envC3 3 0 "rate limit exceeded" (by decide)
    (fun _ _ => rfl) (fun j hj => absurd hj (Nat.not_lt_zero j)) rfl

/-- Environment of the C1 counterexample: passes 0 and 1 succeed, pass 2
fails, no cancellation is ever requested. -/
def envC1err : Env where
  signal := fun _ => false
  passCall := fun i => match i with
    | 0 => CallOutcome.ok "pass zero output"
    | 1 => CallOutcome.ok "pass one output"
    | _ => CallOutcome.err "provider outage"
  synthCall := CallOutcome.ok "synthesized"

/-- C1 counterexample: in a 3-pass run whose third pass call fails, the pass
count exceeds 1, more than one pass completed, and no cancellation was
requested, yet the synthesis call is not made — the claimed equivalence is
false as stated. -/
theorem synthesis_iff_counterexample :
    ¬ ((runResearch envC1err 3).synthesisInvoked = true ↔
      (1 < 3 ∧ 1 < (runResearch envC1err 3).completedPasses.length ∧
        (runResearch envC1err 3).sawCancel = false)) := by decide

/-- C1 (amended): when the pass loop exits without a thrown error, the
synthesis call is made iff the signal is unset at the pre-synthesis check,
N > 1, and more than one pass completed; when additionally synthesis is not
invoked, the final answer is exactly the last completed pass output, or
empty text when no pass completed; a run whose pass loop throws (generation
failure, or abort during a call) assigns no final answer at all and makes
no synthesis call. -/
theorem synthesis_condition (env : Env) (N : Nat) :
    ((runResearch env N).loopThrew = false →
      ((runResearch env N).synthesisInvoked = true ↔
        (env.signal N = false ∧ 1 < N ∧ 1 < (runResearch env N).completedPasses.length))) ∧
    ((runResearch env N).loopThrew = false → (runResearch env N).synthesisInvoked = false →
      (runResearch env N).finalAnswer =
        some ((runResearch env N).completedPasses.getLast?.getD "")) ∧
    ((runResearch env N).loopThrew = true →
      (runResearch env N).finalAnswer = none ∧
        (runResearch env N).synthesisInvoked = false) := by
  rcases hL : loopGo env (List.range N) [] [] with ⟨P, calls, c, th⟩
  rcases th with _ | mm
  · by_cases hcond : env.signal N = false ∧ 1 < N ∧ 1 < P.length
    · rcases hsy : env.synthCall with s | m | _ <;>
        simp only [runResearch, hL, hsy, if_pos hcond] <;>
        simp [hcond.1, hcond.2.1, hcond.2.2]
    · simp only [runResearch, hL, if_neg hcond]
      simp [hcond]
  · rcases mm with m | _ <;> simp [runResearch, hL]

/-- Environment of the C1 witness: every call succeeds, no cancellation. -/
def envC1ok : Env where
  signal := fun _ => false
  passCall := fun i => match i with
    | 0 => CallOutcome.ok "p0"
    | 1 => CallOutcome.ok "p1"
    | _ => CallOutcome.ok "p2"
  synthCall := CallOutcome.ok "synthesized"

/-- C1 witness: with three successful passes the synthesis call is made;
with a single pass it is skipped and the final answer is the last completed
output; in the run whose third pass call fails, no final answer is assigned
and no synthesis call is made. -/
theorem synthesis_condition_witness :
    (runResearch envC1ok 3).synthesisInvoked = true ∧
    ((runResearch envC1ok 1).finalAnswer =
      some ((runResearch envC1ok 1).completedPasses.getLast?.getD "")) ∧
    ((runResearch envC1err 3).finalAnswer = none ∧
      (runResearch envC1err 3).synthesisInvoked = false) :=
  ⟨((synthesis_condition envC1ok 3).1 (by decide)).mpr ⟨by decide, by decide, by decide⟩,
    (synthesis_condition envC1ok 1).2.1 (by decide) (by decide),
    (synthesis_condition envC1err 3).2.2 (by decide)⟩

/-- C10: invoking `startResearch` while a run is already active, or with a
query whose trimmed text is empty, is a no-op: the guard returns before any
event is emitted, any generation call is issued, or any state changes. -/
theorem start_guard_noop (q : String) (b : Bool) (d : String) (env : Env)
    (h : b = true ∨ jsTrim q = "") :
    startResearch q b d env = none := by
  unfold startResearch
  exact if_pos (h.elim Or.inr Or.inl)

/-- Environment of the C10 witness. -/
def envC10 : Env where
  signal := fun _ => false
  passCall := fun _ => CallOutcome.ok "x"
  synthCall := CallOutcome.ok "y"

/-- C10 witness: a whitespace-only query is a no-op even when no run is
active. -/
theorem start_guard_noop_witness :
    ((false : Bool) = true ∨ jsTrim "   " = "") ∧
    startResearch "   " false "standard" envC10 = none :=
  ⟨Or.inr (by decide), start_guard_noop "   " false "standard" envC10 (Or.inr (by decide))⟩

end Nexus
